import Mathlib

/-!
Verification development for the music-library-profiler core:
feature-extraction pipeline (`audio_feature_extractor.py`),
similarity indexing and playlist generation (`track_similarity.py`),
and the persistence layer they rely on (`database.py`).

Modelling conventions:
* Python floats are modelled as exact rationals (`ℚ`); the numeric literals
  `0.6`, `0.4`, `1.1`, `1.05`, `0.95` of the source are the corresponding
  rationals.
* Track ids (SQLite INTEGER primary keys, faiss int64 ids) are `ℤ`.
* File paths are `String`.
* A Python function that can either return `None` or raise an uncaught
  exception is modelled as returning `Option`; `none` covers both
  failure modes (each `none` branch is annotated with the concrete
  Python behaviour it stands for).
* `faiss.IndexIDMap(faiss.IndexFlatL2(d))` is external library code; it is
  modelled as an exact nearest-neighbour structure over the inserted
  `(id, vector)` pairs with squared-L2 distance, returning the `k` nearest
  entries in ascending distance order.  The source never queries with
  `k` larger than needed for the claims at hand, so the `-1` padding faiss
  emits when `k` exceeds the number of stored vectors is not modelled.
* `np.linalg.norm` (Euclidean norm, an irrational square root in general)
  is external library code; functions that call it take an explicit
  `norm : Vec → ℚ` parameter, so every theorem about them quantifies over
  all possible norm functions, including the true Euclidean one whenever
  it is rational on the inputs actually used.
* `concurrent.futures.as_completed` yields worker results in an
  unspecified completion order; the pipeline model processes the missing
  track ids in ascending id order, one representative of the possible
  orders.  No claim below depends on the order.
-/

set_option maxRecDepth 40000

namespace MLP

/-- Track identifier: SQLite INTEGER primary key / faiss int64 id. -/
abbrev TrackId := ℤ

/-- A numeric feature vector (a numpy 1-d float array in the source). -/
abbrev Vec := List ℚ

/-- HPCP_DIMENSION constant of `track_similarity.py` (HPCP is 1x12). -/
def HPCP_DIMENSION : ℕ := 12

/-- GENRE_DIMENSION constant of `track_similarity.py` (EFFNET embedding 1x1280). -/
def GENRE_DIMENSION : ℕ := 1280

/-- The `Features` dataclass of `features.py`: hpcp vector, bpm, genre embedding. -/
structure Features where
  hpcp : Vec
  bpm : ℚ
  genre : Vec
deriving DecidableEq

/-- One row of the `track_features` SQLite table (`database.py`):
`hpcp_data` is declared NOT NULL, `bpm_data` and `genre_data` are nullable. -/
structure FeatureRow where
  hpcp_data : Vec
  bpm_data : Option ℚ
  genre_data : Option Vec
deriving DecidableEq

/-- Lookup in an association list keyed by track id (a Python dict read
`m[k]` / `m.get(k)`, or an SQL primary-key lookup). -/
def getAssoc {α : Type} : List (TrackId × α) → TrackId → Option α
  | [], _ => none
  | p :: rest, k => if p.1 == k then some p.2 else getAssoc rest k

/-- Overwrite-or-append update of an association list keyed by track id
(a Python dict assignment `m[k] = v`, or SQL INSERT OR REPLACE on the
primary key). -/
def setAssoc {α : Type} (m : List (TrackId × α)) (k : TrackId) (v : α) :
    List (TrackId × α) :=
  match m with
  | [] => [(k, v)]
  | (k', v') :: rest => if k' == k then (k, v) :: rest else (k', v') :: setAssoc rest k v

/-- Elementwise `(x - y)^2` summed: the squared L2 distance used by
`faiss.IndexFlatL2`. -/
def sqDist (a b : Vec) : ℚ :=
  (List.zipWith (fun x y => (x - y) ^ 2) a b).sum

/-- Model of `faiss.IndexIDMap(faiss.IndexFlatL2(dim))`: the flat index
stores the inserted (id, vector) pairs in insertion order. -/
structure FaissIndexIDMap where
  dim : ℕ
  entries : List (TrackId × Vec)
deriving DecidableEq

/-- Model of `index.search(query, k)` on a flat L2 index: every stored
vector is scored by squared L2 distance to the query and the `k` best
(ascending distance, ties kept in insertion order) are returned as
(id, distance) pairs. -/
def FaissIndexIDMap.search (idx : FaissIndexIDMap) (q : Vec) (k : ℕ) :
    List (TrackId × ℚ) :=
  ((idx.entries.map (fun e => (e.1, sqDist q e.2))).mergeSort
    (fun a b => decide (a.2 ≤ b.2))).take k

/-- Model of `index.add_with_ids(vectors, ids)`: appends the pairs. -/
def FaissIndexIDMap.add_with_ids (idx : FaissIndexIDMap) (vectors : List Vec)
    (ids : List TrackId) : FaissIndexIDMap :=
  { idx with entries := idx.entries ++ ids.zip vectors }

/-- The two per-feature-type indexes owned by `TrackSimilarity`
(`self.hpcp_index`, `self.genre_index`). -/
structure TrackSim where
  hpcp_index : FaissIndexIDMap
  genre_index : FaissIndexIDMap
deriving DecidableEq

/-- State of the SQLite database behind the repository interface of
`database.py`, restricted to what the verified code touches:
`pathToId` is `get_track_id_by_path` (the `track_metadata.file_path → id`
mapping), `metadataPath` is the `file_path` column read by
`get_track_metadata_by_id`, `table` is the `track_features` table, and
`dbError` injects the `sqlite3.Error` failure mode of
`batch_insert_features` (the only write the claims exercise). -/
structure Database where
  pathToId : String → Option TrackId
  metadataPath : TrackId → Option String
  table : List (TrackId × FeatureRow)
  dbError : Bool

/-- Model of `Database.get_track_id_by_path`. -/
def Database.get_track_id_by_path (db : Database) (p : String) : Option TrackId :=
  db.pathToId p

/-- Model of `Database.get_track_ids_by_paths`: the `{file_path: track_id}`
dict for the paths that resolve. -/
def Database.get_track_ids_by_paths (db : Database) (paths : List String) :
    List (String × TrackId) :=
  paths.dedup.filterMap (fun p => (db.pathToId p).map (fun i => (p, i)))

/-- A `track_features` row is complete when all three of `hpcp_data`,
`bpm_data`, `genre_data` are non-NULL (the WHERE clause of
`get_missing_features`; `hpcp_data` is NOT NULL by schema). -/
def Database.complete (db : Database) (j : TrackId) : Bool :=
  match getAssoc db.table j with
  | some r => r.bpm_data.isSome && r.genre_data.isSome
  | none => false

/-- Model of `Database.get_missing_features`: partitions the requested ids
into (missing, complete). -/
def Database.get_missing_features (db : Database) (track_ids : List TrackId) :
    Finset TrackId × Finset TrackId :=
  (track_ids.toFinset.filter (fun j => ¬ db.complete j),
   track_ids.toFinset.filter (fun j => db.complete j))

/-- Model of `Database.get_feature_by_id`.  The source builds
`Features(hpcp, bpm, genre)` from the row; a missing row returns `None`,
and a NULL `genre_data` makes `np.frombuffer(None)` raise, which the
method catches and turns into `None`.  A NULL `bpm_data` yields a
`Features` whose every later tempo use raises inside a caller that
returns `None`; it is modelled as `none` here as well. -/
def Database.get_feature_by_id (db : Database) (j : TrackId) : Option Features :=
  match getAssoc db.table j with
  | none => none
  | some r =>
    match r.bpm_data, r.genre_data with
    | some b, some g => some { hpcp := r.hpcp_data, bpm := b, genre := g }
    | _, _ => none

/-- Model of `Database.get_features_by_ids`: the rows found for the
requested ids; an empty result set returns `None` (the source then
crashes at `None.items()` in its caller).  The source populates the
returned `Features` with `genre=None`; only the `bpm` field is read
downstream, so rows are returned whole here. -/
def Database.get_features_by_ids (db : Database) (ids : List TrackId) :
    Option (List (TrackId × FeatureRow)) :=
  let rows := ids.filterMap (fun j => (getAssoc db.table j).map (fun r => (j, r)))
  if rows.isEmpty then none else some rows

/-- Model of `Database.batch_insert_features` on a non-empty batch:
on an injected `sqlite3.Error` the transaction rolls back and `None`
is returned; otherwise every `(track_id, features)` pair is
INSERT OR REPLACEd as a complete row and the set of stored ids is
returned.  (In the model the per-track numpy conversion never fails, so
`data_tuples` is the whole batch.) -/
def Database.batch_insert_features (db : Database)
    (feature_data_dict : List (TrackId × Features)) :
    Database × Option (Finset TrackId) :=
  if db.dbError then (db, none)
  else
    ({ db with
        table := feature_data_dict.foldl
          (fun t p => setAssoc t p.1
            { hpcp_data := p.2.hpcp, bpm_data := some p.2.bpm,
              genre_data := some p.2.genre }) db.table },
     some (feature_data_dict.map (fun p => p.1)).toFinset)

/-- Python truthiness of an optional float: `None` and `0.0` are falsy. -/
def truthy (q : Option ℚ) : Bool :=
  match q with
  | none => false
  | some x => x != 0

/-- The final line `(0.6 * hpcp_score) + (0.4 * genre_score)` of
`get_weighted_score`; `none` models the `TypeError` raised when either
operand is still `None` at that point. -/
def combineScores : Option ℚ → Option ℚ → Option ℚ
  | some h, some g => some ((0.6 : ℚ) * h + (0.4 : ℚ) * g)
  | _, _ => none

/-- Model of `TrackSimilarity.get_weighted_score`, including the Python
truthiness of its `if genre_score and hpcp_score is None` /
`elif hpcp_score and genre_score is None` guards. -/
def get_weighted_score (hpcp_score genre_score : Option ℚ) : Option ℚ :=
  if truthy genre_score && hpcp_score.isNone then
    combineScores (some 0) genre_score
  else if truthy hpcp_score && genre_score.isNone then
    combineScores hpcp_score (some 0)
  else if hpcp_score.isNone && genre_score.isNone then
    some 0
  else
    combineScores hpcp_score genre_score

/-- The ranking dicts of `find_similar_tracks_to`: for each returned
(id, distance) pair, in order, set `rankings[id] = 1/(1+distance)`
(a later duplicate id overwrites an earlier one). -/
def populateRankings (results : List (TrackId × ℚ)) : List (TrackId × ℚ) :=
  results.foldl (fun m p => setAssoc m p.1 (1 / (1 + p.2))) []

/-- The tempo-compatibility test of `find_similar_tracks_to`:
`f.bpm <= features.bpm * 1.05 and f.bpm >= features.bpm * 0.95`. -/
def bpmCompatible (query_bpm bpm : ℚ) : Bool :=
  decide (bpm ≤ query_bpm * (1.05 : ℚ)) && decide (bpm ≥ query_bpm * (0.95 : ℚ))

/-- Per-candidate score assembly of `find_similar_tracks_to`: the weighted
combination of the two ranking lookups, multiplied by 1.1 when the
candidate is tempo compatible. -/
def trackScore (hr gr : List (TrackId × ℚ)) (boost : Bool) (j : TrackId) :
    Option ℚ :=
  (get_weighted_score (getAssoc hr j) (getAssoc gr j)).map
    (fun s => if boost then s * (1.1 : ℚ) else s)

/-- The `track_scores` accumulation loop of `find_similar_tracks_to`:
one (id, combined score) pair per candidate id; `none` models the
`TypeError` that `get_weighted_score` raises escaping the loop. -/
def scoreAll (hr gr : List (TrackId × ℚ)) (compat : List TrackId) :
    List TrackId → Option (List (TrackId × ℚ))
  | [] => some []
  | j :: rest =>
    match trackScore hr gr (compat.contains j) j with
    | none => none
    | some s => (scoreAll hr gr compat rest).map (fun l => (j, s) :: l)

/-- The candidate id set of `find_similar_tracks_to`:
`set(hpcp_track_ids[0]) | set(genre_track_ids[0])`, materialised as a
duplicate-free list (Python set iteration order is unspecified; no claim
depends on the order used here). -/
def allCandidateIds (hres gres : List (TrackId × ℚ)) : List TrackId :=
  (hres.map (fun p => p.1) ++ gres.map (fun p => p.1)).dedup

/-- Core of `TrackSimilarity.find_similar_tracks_to` (lines 276-317) once
the query `Features` are in hand: search both indexes, build the two
ranking dicts, union the candidate ids, mark tempo-compatible candidates,
score every candidate, and sort descending by score (Python's stable
sort).  `none` models the `except` branch (any exception inside, e.g.
`None.items()` when no candidate has stored features, returns `None`). -/
def find_similar_core (ts : TrackSim) (db : Database) (features : Features)
    (num_tracks : ℕ) : Option (List (TrackId × ℚ)) :=
  let hres := ts.hpcp_index.search features.hpcp num_tracks
  let gres := ts.genre_index.search features.genre num_tracks
  let hr := populateRankings hres
  let gr := populateRankings gres
  let all_track_ids := allCandidateIds hres gres
  match db.get_features_by_ids all_track_ids with
  | none => none
  | some feature_list =>
    if feature_list.any (fun p => p.2.bpm_data.isNone) then none
    else
      let compat := (feature_list.filter
        (fun p => bpmCompatible features.bpm (p.2.bpm_data.getD 0))).map
          (fun p => p.1)
      match scoreAll hr gr compat all_track_ids with
      | none => none
      | some track_scores =>
        some (track_scores.mergeSort (fun a b => decide (b.2 ≤ a.2)))

/-- Model of the full `TrackSimilarity.find_similar_tracks_to` signature
(lines 259-320): resolve the track id from the path when absent, resolve
the path from track metadata when absent (a missing metadata row raises
and is caught, giving `None`), fetch stored features when none were
passed, then run the core query. -/
def find_similar_tracks_to (ts : TrackSim) (db : Database)
    (track_path : Option String) (track_id : Option TrackId)
    (features : Option Features) (num_tracks : ℕ) :
    Option (List (TrackId × ℚ)) :=
  if track_path.isNone && track_id.isNone then none
  else
    let tid : Option TrackId :=
      match track_id with
      | some t => some t
      | none => track_path.bind db.pathToId
    let pathOk : Bool :=
      match track_path with
      | some _ => true
      | none => (tid.bind db.metadataPath).isSome
    if !pathOk then none
    else
      let feats : Option Features :=
        match features with
        | some f => some f
        | none => tid.bind db.get_feature_by_id
      match feats with
      | none => none
      | some f => find_similar_core ts db f num_tracks

/-- Row-length homogeneity of `np.array(list_of_vectors, dtype=np.float32)`:
a ragged list raises `ValueError` (`none`); a homogeneous one yields a
2-d array whose `shape[1]` is the common row length. -/
def sameLength (l : List Vec) : Option ℕ :=
  match l with
  | [] => some 0
  | v :: rest => if rest.all (fun w => w.length == v.length) then some v.length else none

/-- Model of `TrackSimilarity.index_features` (lines 322-358): an empty
dict is a no-op; both numpy arrays are built first (`none` = the
`ValueError` a ragged batch raises there); then the four validation
checks run in source order, each returning with the indexes untouched on
failure; only after all pass are both `add_with_ids` calls made. -/
def index_features (ts : TrackSim) (feature_dict : List (TrackId × Features)) :
    Option TrackSim :=
  if feature_dict.isEmpty then some ts
  else
    let hpcp_list := feature_dict.map (fun p => p.2.hpcp)
    let genre_list := feature_dict.map (fun p => p.2.genre)
    let ids := feature_dict.map (fun p => p.1)
    match sameLength hpcp_list, sameLength genre_list with
    | some hdim, some gdim =>
      if hdim ≠ HPCP_DIMENSION then some ts
      else if gdim ≠ GENRE_DIMENSION then some ts
      else if hpcp_list.length ≠ ids.length then some ts
      else if genre_list.length ≠ ids.length then some ts
      else some
        { hpcp_index := ts.hpcp_index.add_with_ids hpcp_list ids,
          genre_index := ts.genre_index.add_with_ids genre_list ids }
    | _, _ => none

/-- Outcome of one `_store_batch` call as observed by its caller. -/
inductive StoreOutcome where
  /-- The call raised (the `ValueError` escaping `index_features`). -/
  | raised : StoreOutcome
  /-- The call returned `None` (empty batch, or `batch_insert_features`
  reported failure). -/
  | returnedNone : StoreOutcome
  /-- The call returned the set of ids the store reported as written. -/
  | stored : Finset TrackId → StoreOutcome
deriving DecidableEq

/-- Model of `AudioFeatureExtractor._store_batch` (lines 142-160): on a
non-empty batch it first calls `batch_insert_features`, then calls
`index_features` on the same batch unconditionally, and only afterwards
inspects the insert result.  Returns the database and index states after
the call together with the observed outcome. -/
def store_batch (db : Database) (ts : TrackSim)
    (feature_batch : List (TrackId × Features)) :
    Database × TrackSim × StoreOutcome :=
  if feature_batch.isEmpty then (db, ts, .returnedNone)
  else
    let r := db.batch_insert_features feature_batch
    match index_features ts feature_batch with
    | none => (r.1, ts, .raised)
    | some ts' =>
      match r.2 with
      | none => (r.1, ts', .returnedNone)
      | some s => (r.1, ts', .stored s)

/-- Outcome of one worker future in `find_features_of_list`:
`find_features_of_file` returned a `Features`, returned `None`, or raised
(the exception surfacing from `future.result()`). -/
inductive ExtractResult where
  | ok : Features → ExtractResult
  | returnedNone : ExtractResult
  | raised : ExtractResult

/-- Mutable state of the accumulation/flush loop of
`find_features_of_list`. -/
structure PipelineState where
  db : Database
  ts : TrackSim
  batch : List (TrackId × Features)
  total_stored : ℕ
  successful : Finset TrackId
  errors : List String

/-- One iteration of the `as_completed` loop of `find_features_of_list`
(lines 93-120) for the track id of the completed future: record the
extraction result, then flush whenever the pending batch has reached
`batch_size`.  At a flush the statement `successful_files |
stored_in_batch` computes a union and discards it (source line 112), so
`successful` is left unchanged; a flush whose `_store_batch` raised or
returned `None` lands in the `except` branch (error recorded, batch not
cleared, since `current_feature_batch.clear()` comes after the length
update that raised). -/
def pipelineStep (batch_size : ℕ) (extract : TrackId → ExtractResult)
    (st : PipelineState) (tid : TrackId) : PipelineState :=
  match extract tid with
  | .raised => { st with errors := st.errors ++ ["Error processing track"] }
  | other =>
    let st1 :=
      match other with
      | .ok f => { st with batch := st.batch ++ [(tid, f)] }
      | _ => { st with errors := st.errors ++ ["No feature data"] }
    if batch_size ≤ st1.batch.length then
      let r := store_batch st1.db st1.ts st1.batch
      match r.2.2 with
      | .stored s =>
        { st1 with db := r.1, ts := r.2.1, batch := [],
                   total_stored := st1.total_stored + s.card }
      | _ =>
        { st1 with db := r.1, ts := r.2.1,
                   errors := st1.errors ++ ["Error processing track"] }
    else st1

/-- The `as_completed` loop over the missing tracks. -/
def pipelineLoop (batch_size : ℕ) (extract : TrackId → ExtractResult) :
    PipelineState → List TrackId → PipelineState
  | st, [] => st
  | st, tid :: rest =>
    pipelineLoop batch_size extract (pipelineStep batch_size extract st tid) rest

/-- Return value of `find_features_of_list` together with the final
database and index states. -/
structure PipelineResult where
  db : Database
  ts : TrackSim
  successful_files : Finset TrackId
  errors : List String

/-- Model of `AudioFeatureExtractor.find_features_of_list`
(lines 40-140): resolve the file list to track ids, split into
missing/complete, short-circuit when nothing resolves or nothing is
missing, otherwise run the worker loop over the missing ids (in
ascending id order, one representative of the unspecified completion
order) and flush the final partial batch.  `successful_files` starts as
the pre-existing complete set and — because the union at source lines
112 and 126 is discarded — is never extended.  A final flush whose
`_store_batch` raises or returns `None` makes the function itself raise
(`len(None)` outside any `try`), modelled as `none`. -/
def find_features_of_list (db : Database) (ts : TrackSim)
    (track_list : List String) (extract : TrackId → ExtractResult)
    (batch_size : ℕ) : Option PipelineResult :=
  let track_mapping := db.get_track_ids_by_paths track_list
  if track_mapping.isEmpty then
    some { db := db, ts := ts, successful_files := ∅,
           errors := ["No track mappings for feature extraction."] }
  else
    let mc := db.get_missing_features (track_mapping.map (fun p => p.2))
    if mc.1 = ∅ then
      some { db := db, ts := ts, successful_files := mc.2, errors := [] }
    else
      let order := mc.1.sort (fun a b => a ≤ b)
      let st := pipelineLoop batch_size extract
        { db := db, ts := ts, batch := [], total_stored := 0,
          successful := mc.2, errors := [] } order
      if st.batch.isEmpty then
        some { db := st.db, ts := st.ts, successful_files := st.successful,
               errors := st.errors }
      else
        let r := store_batch st.db st.ts st.batch
        match r.2.2 with
        | .stored _ =>
          some { db := r.1, ts := r.2.1, successful_files := st.successful,
                 errors := st.errors }
        | _ => none

/-- Elementwise vector sum (numpy broadcasting `a + b`). -/
def vadd (a b : Vec) : Vec := List.zipWith (fun x y => x + y) a b

/-- Elementwise vector difference (numpy `a - b`). -/
def vsub (a b : Vec) : Vec := List.zipWith (fun x y => x - y) a b

/-- Scalar multiple of a vector (numpy `c * a`). -/
def vscale (c : ℚ) (a : Vec) : Vec := a.map (fun x => c * x)

/-- Model of `np.zeros_like(a)`. -/
def vzeros (a : Vec) : Vec := a.map (fun _ => 0)

/-- The LINEAR interpolation formula of `create_playlist_gradient`:
`(1 - alpha) * source + alpha * target`, elementwise. -/
def lerpVec (src dst : Vec) (alpha : ℚ) : Vec :=
  List.zipWith (fun x y => (1 - alpha) * x + alpha * y) src dst

/-- The GRADIENT interpolation formula of `create_playlist_gradient`:
`current + alpha * (target - current)`, elementwise. -/
def gradVec (cur dst : Vec) (alpha : ℚ) : Vec :=
  List.zipWith (fun x y => x + alpha * (y - x)) cur dst

/-- Walk state of `create_playlist_gradient`: the playlist built so far
and `current_track_id`. -/
structure GradState where
  playlist : List TrackId
  current : TrackId

/-- One iteration of the `create_playlist_gradient` step loop
(lines 57-99).  `none` models an uncaught exception: an interpolation
mode other than LINEAR (0) / GRADIENT (1) leaves `interpolated_hpcp`
unbound (`NameError`), and a current track without stored features makes
`current_features.bpm` raise.  A step whose search returns `None`/empty
or finds no candidate outside the playlist leaves the state unchanged
(`continue` / no append). -/
def gradientStep (ts : TrackSim) (db : Database) (sf tf : Features)
    (mode : ℕ) (num_tracks : ℕ) (st : GradState) (step : ℕ) :
    Option GradState :=
  let alpha : ℚ := (step : ℚ) / ((num_tracks : ℚ) + 1)
  match db.get_feature_by_id st.current with
  | none => none
  | some cf =>
    let interpolated : Option (Vec × Vec) :=
      if mode = 0 then some (lerpVec sf.hpcp tf.hpcp alpha, lerpVec sf.genre tf.genre alpha)
      else if mode = 1 then some (gradVec cf.hpcp tf.hpcp alpha, gradVec cf.genre tf.genre alpha)
      else none
    match interpolated with
    | none => none
    | some iv =>
      let target_point : Features := { hpcp := iv.1, bpm := cf.bpm, genre := iv.2 }
      match find_similar_tracks_to ts db none (some st.current) (some target_point) 50 with
      | none => some st
      | some similar_tracks =>
        if similar_tracks.isEmpty then some st
        else
          match similar_tracks.find? (fun p => !st.playlist.contains p.1) with
          | some best => some { playlist := st.playlist ++ [best.1], current := best.1 }
          | none => some st

/-- The step loop of `create_playlist_gradient` over steps `1..num_tracks`. -/
def gradientLoop (ts : TrackSim) (db : Database) (sf tf : Features)
    (mode : ℕ) (num_tracks : ℕ) : GradState → List ℕ → Option GradState
  | st, [] => some st
  | st, s :: rest =>
    match gradientStep ts db sf tf mode num_tracks st s with
    | none => none
    | some st' => gradientLoop ts db sf tf mode num_tracks st' rest

/-- Model of `TrackSimilarity.create_playlist_gradient` (lines 34-102),
the spec's LinearInterpolationWalk: resolve both endpoint paths and fetch
both feature records (failure returns `None`), then run the interpolation
step loop starting from the source.  The function returns the loop's
playlist as is — no destination append exists in the source. -/
def create_playlist_gradient (ts : TrackSim) (db : Database)
    (source_track_path destination_track_path : String) (num_tracks : ℕ)
    (mode : ℕ) : Option (List TrackId) :=
  match db.get_track_id_by_path source_track_path,
        db.get_track_id_by_path destination_track_path with
  | some sid, some did =>
    match db.get_feature_by_id sid, db.get_feature_by_id did with
    | some sf, some tf =>
      match gradientLoop ts db sf tf mode num_tracks
          { playlist := [sid], current := sid } (List.range' 1 num_tracks) with
      | none => none
      | some st => some st.playlist
    | _, _ => none
  | _, _ => none

/-- Walk state of `create_playlist_include_track_direction`: the playlist,
`current_id`, and the Python local variable `best_track_id` (`none` while
it has never been assigned). -/
structure DirState where
  playlist : List TrackId
  current : TrackId
  best : Option TrackId

/-- Result of one directional step: continue the loop or break out of it. -/
inductive DirStepResult where
  | cont : DirState → DirStepResult
  | brk : DirState → DirStepResult

/-- One iteration of the `create_playlist_include_track_direction` step
loop (lines 134-191).  `none` models an uncaught exception: a current
track without stored features (`current_features.hpcp` raises), or the
`NameError` read of `best_track_id` when no candidate ever qualified and
the variable was never assigned.  When no new candidate qualifies but
`best_track_id` holds a stale value from an earlier step, that stale id
is appended again (the source never resets it to `None`).  An empty
search result after the doubled-width retry breaks the loop. -/
def dirStep (ts : TrackSim) (db : Database) (norm : Vec → ℚ) (df : Features)
    (destination_track_id : TrackId) (hpcp_step genre_step : ℚ)
    (num_tracks : ℕ) (st : DirState) (step : ℕ) : Option DirStepResult :=
  let progress : ℚ := (step : ℚ) / ((num_tracks : ℚ) + 1)
  match db.get_feature_by_id st.current with
  | none => none
  | some cf =>
    let current_hpcp_dist := norm (vsub cf.hpcp df.hpcp)
    let current_genre_dist := norm (vsub cf.genre df.genre)
    let hpcp_direction :=
      if current_hpcp_dist ≠ 0 then vscale (1 / current_hpcp_dist) (vsub df.hpcp cf.hpcp)
      else vzeros cf.hpcp
    let genre_direction :=
      if current_genre_dist ≠ 0 then vscale (1 / current_genre_dist) (vsub df.genre cf.genre)
      else vzeros cf.genre
    let target_features : Features :=
      { hpcp := vadd cf.hpcp (vscale hpcp_step hpcp_direction),
        bpm := cf.bpm,
        genre := vadd cf.genre (vscale genre_step genre_direction) }
    let search_size : ℕ := (Int.floor ((50 : ℚ) + 50 * (1 - progress))).toNat
    let first := find_similar_tracks_to ts db none (some st.current)
      (some target_features) search_size
    let similar_tracks :=
      if first.getD [] |>.isEmpty then
        find_similar_tracks_to ts db none (some st.current)
          (some target_features) (search_size * 2)
      else first
    match similar_tracks with
    | none => some (.brk st)
    | some sims =>
      if sims.isEmpty then some (.brk st)
      else
        let newBest := (sims.find? (fun p =>
          !st.playlist.contains p.1 && p.1 != destination_track_id)).map (fun p => p.1)
        match newBest with
        | some b => some (.cont { playlist := st.playlist ++ [b], current := b, best := some b })
        | none =>
          match st.best with
          | none => none
          | some b => some (.cont { playlist := st.playlist ++ [b], current := b, best := some b })

/-- The step loop of `create_playlist_include_track_direction`. -/
def dirLoop (ts : TrackSim) (db : Database) (norm : Vec → ℚ) (df : Features)
    (destination_track_id : TrackId) (hpcp_step genre_step : ℚ)
    (num_tracks : ℕ) : DirState → List ℕ → Option DirState
  | st, [] => some st
  | st, s :: rest =>
    match dirStep ts db norm df destination_track_id hpcp_step genre_step
        num_tracks st s with
    | none => none
    | some (.brk st') => some st'
    | some (.cont st') =>
      dirLoop ts db norm df destination_track_id hpcp_step genre_step
        num_tracks st' rest

/-- Model of `TrackSimilarity.create_playlist_include_track_direction`
(lines 104-197), the spec's DirectionalStepWalk: resolve both endpoints
and their features (failure returns `None`), precompute the per-step
magnitudes from the endpoint `np.linalg.norm` distances, run the step
loop, then append the destination id only if it is not already in the
playlist. -/
def create_playlist_include_track_direction (ts : TrackSim) (db : Database)
    (norm : Vec → ℚ) (source_track_path destination_track_path : String)
    (num_tracks : ℕ) : Option (List TrackId) :=
  match db.get_track_id_by_path source_track_path,
        db.get_track_id_by_path destination_track_path with
  | some sid, some did =>
    match db.get_feature_by_id sid, db.get_feature_by_id did with
    | some sf, some df =>
      let total_hpcp_diff := norm (vsub df.hpcp sf.hpcp)
      let total_genre_diff := norm (vsub df.genre sf.genre)
      let hpcp_step := total_hpcp_diff / (num_tracks : ℚ)
      let genre_step := total_genre_diff / (num_tracks : ℚ)
      match dirLoop ts db norm df did hpcp_step genre_step num_tracks
          { playlist := [sid], current := sid, best := none }
          (List.range' 1 num_tracks) with
      | none => none
      | some st =>
        if st.playlist.contains did then some st.playlist
        else some (st.playlist ++ [did])
    | _, _ => none
  | _, _ => none

/-- Model of `TrackSimilarity.create_playlist_multitrack_related`
(lines 219-244), the spec's MultiTrackUnion: an empty input returns
`None`; otherwise every path is processed in order — an unresolvable
path or a failed similarity query is skipped with a log message — and
each surviving track id is appended followed by its similar ids that are
neither the track itself nor already present. -/
def create_playlist_multitrack_related (ts : TrackSim) (db : Database)
    (track_paths : List String) (num_tracks_per_track : ℕ) :
    Option (List TrackId) :=
  if track_paths.isEmpty then none
  else
    some (track_paths.foldl (fun playlist p =>
      match db.get_track_id_by_path p with
      | none => playlist
      | some track_id =>
        match find_similar_tracks_to ts db none (some track_id) none
            num_tracks_per_track with
        | none => playlist
        | some similar_tracks =>
          similar_tracks.foldl (fun pl q =>
            if q.1 != track_id && !pl.contains q.1 then pl ++ [q.1] else pl)
            (playlist ++ [track_id])) [])

/-!
Concrete inputs for witnesses and counterexamples.

Chroma vectors are honest 12-dimensional HPCP profiles.  The concrete
states that actually run similarity queries use a 1-dimensional timbre
deployment (`timb`), since the query path is dimension-agnostic; the
1280-dimensional timbre constant is exercised where the code validates
it (`index_features`, i.e. the pipeline and indexing claims).
-/

/-- Chroma profile concentrated on pitch class C. -/
def hpcpA : Vec := 1 :: List.replicate 11 (0 : ℚ)

/-- Chroma profile at squared L2 distance 1 from `hpcpA`. -/
def hpcpB : Vec := 1 :: 1 :: List.replicate 10 (0 : ℚ)

/-- Chroma profile at squared L2 distance 4 from `hpcpA`. -/
def hpcpC : Vec := 1 :: 2 :: List.replicate 10 (0 : ℚ)

/-- Shared 1-dimensional timbre embedding of the query examples. -/
def timb : Vec := [0]

/-- A complete feature row with tempo 120. -/
def rowOf (h g : Vec) : FeatureRow :=
  { hpcp_data := h, bpm_data := some 120, genre_data := some g }

/-- Index state holding tracks 1, 2, 3 of the query examples. -/
def tsQuery : TrackSim :=
  { hpcp_index := { dim := 12, entries := [(1, hpcpA), (2, hpcpB), (3, hpcpC)] },
    genre_index := { dim := 1, entries := [(1, timb), (2, timb), (3, timb)] } }

/-- Database state of the query examples: paths "p" and "q" resolve to
tracks 1 and 2, all three tracks have metadata and complete features. -/
def dbQuery : Database :=
  { pathToId := fun p => if p = "p" then some 1 else if p = "q" then some 2 else none,
    metadataPath := fun j =>
      if j = 1 then some "p" else if j = 2 then some "q"
      else if j = 3 then some "r" else none,
    table := [(1, rowOf hpcpA timb), (2, rowOf hpcpB timb), (3, rowOf hpcpC timb)],
    dbError := false }

/-- A complete full-dimension feature row (12-dim chroma, 1280-dim timbre). -/
def fullRow : FeatureRow :=
  { hpcp_data := List.replicate 12 (0 : ℚ), bpm_data := some 120,
    genre_data := some (List.replicate 1280 (0 : ℚ)) }

/-- Full-dimension features as produced by a successful extraction. -/
def fullFeatures : Features :=
  { hpcp := List.replicate 12 (0 : ℚ), bpm := 120,
    genre := List.replicate 1280 (0 : ℚ) }

/-- Empty pair of indexes (`_initialize_faiss` over an empty store). -/
def tsEmpty : TrackSim :=
  { hpcp_index := { dim := 12, entries := [] },
    genre_index := { dim := 1280, entries := [] } }

/-- Database where "src" and "dst" resolve to tracks 1 and 2, both with
complete full-dimension features. -/
def dbEndpoints : Database :=
  { pathToId := fun p => if p = "src" then some 1 else if p = "dst" then some 2 else none,
    metadataPath := fun _ => none,
    table := [(1, fullRow), (2, fullRow)],
    dbError := false }

/-- Pipeline database: path "a" resolves to track 1, no features stored yet. -/
def dbPipe : Database :=
  { pathToId := fun p => if p = "a" then some 1 else none,
    metadataPath := fun _ => none, table := [], dbError := false }

/-- Extraction that succeeds with full-dimension features for every track. -/
def extractOk : TrackId → ExtractResult := fun _ => .ok fullFeatures

/-- Empty database whose next batch write fails with `sqlite3.Error`. -/
def dbFaulty : Database :=
  { pathToId := fun _ => none, metadataPath := fun _ => none,
    table := [], dbError := true }

/-- Empty healthy database (no path resolves, no features stored). -/
def dbClean : Database :=
  { pathToId := fun _ => none, metadataPath := fun _ => none,
    table := [], dbError := false }

/-- A batch whose only chroma vector is 11-dimensional (invalid). -/
def badBatch : List (TrackId × Features) :=
  [(5, { hpcp := List.replicate 11 (0 : ℚ), bpm := 120, genre := [0] })]

/-- Norm oracle returning 0; it agrees with the Euclidean norm on the
zero vectors arising in the concrete walk runs below. -/
def normZero : Vec → ℚ := fun _ => 0

/-- Referential consistency between the store and the two indexes: every
id present in either index has a complete feature row (spec §3 /
claim C2). -/
def IndexStoreInv (db : Database) (ts : TrackSim) : Prop :=
  ∀ j : TrackId,
    (j ∈ ts.hpcp_index.entries.map (fun p => p.1) ∨
     j ∈ ts.genre_index.entries.map (fun p => p.1)) →
    db.complete j = true

end MLP

namespace MLP

/-! Helper lemmas about the association-list dictionary model. -/

/-- Updating key `k` then reading key `j` behaves like a dict. -/
theorem getAssoc_setAssoc {α : Type} (m : List (TrackId × α)) (k j : TrackId) (v : α) :
    getAssoc (setAssoc m k v) j = if j = k then some v else getAssoc m j := by
  induction m with
  | nil =>
    by_cases h : j = k
    · subst h
      simp [setAssoc, getAssoc]
    · have h1 : (k == j) = false := by simp [Ne.symm h]
      simp [setAssoc, getAssoc, h1, h]
  | cons hd tl ih =>
    by_cases hk : hd.1 = k
    · have ht : (hd.1 == k) = true := by simp [hk]
      by_cases hj : j = k
      · subst hj
        simp [setAssoc, getAssoc, ht]
      · have h1 : (k == j) = false := by simp [Ne.symm hj]
        have h2 : (hd.1 == j) = false := by
          rw [hk]
          exact h1
        simp [setAssoc, getAssoc, ht, h1, h2, hj]
    · have hf : (hd.1 == k) = false := by simp [hk]
      by_cases hj : j = k
      · subst hj
        have h2 : (hd.1 == j) = false := hf
        simp [setAssoc, getAssoc, hf, h2, ih]
      · simp [setAssoc, getAssoc, hf, ih, hj]

/-- Reading the result of a left fold of dict updates: the last entry for
the key in the written list wins, otherwise the original dict is read. -/
theorem getAssoc_foldl_setAssoc {α β : Type} (f : β → α) :
    ∀ (l : List (TrackId × β)) (m : List (TrackId × α)) (j : TrackId),
    getAssoc (l.foldl (fun t p => setAssoc t p.1 (f p.2)) m) j =
      match l.reverse.find? (fun p => p.1 == j) with
      | some p => some (f p.2)
      | none => getAssoc m j := by
  intro l
  induction l with
  | nil => intro m j; simp
  | cons a t ih =>
    intro m j
    have step : (a :: t).foldl (fun t p => setAssoc t p.1 (f p.2)) m =
        t.foldl (fun t p => setAssoc t p.1 (f p.2)) (setAssoc m a.1 (f a.2)) := rfl
    rw [step, ih]
    have hrev : (a :: t).reverse = t.reverse ++ [a] := by simp
    rw [hrev, List.find?_append]
    cases hfind : t.reverse.find? (fun p => p.1 == j) with
    | some p => simp
    | none =>
      simp only [Option.none_or]
      rw [getAssoc_setAssoc]
      by_cases hj : j = a.1
      · simp [List.find?, hj]
      · have : (a.1 == j) = false := by
          simp [Ne.symm hj]
        simp [List.find?, this, hj]

/-- C3 (amended): in `find_similar_tracks_to`, the similarity assigned to
an id returned by a search at raw distance `d` is `1/(1+d)` — the raw
distance with no mean normalization — for the chroma and timbre rankings
alike (an id returned twice keeps the similarity of its last
occurrence). -/
theorem similarity_is_unnormalized_reciprocal
    (results : List (TrackId × ℚ)) (j : TrackId) :
    getAssoc (populateRankings results) j =
      (results.reverse.find? (fun p => p.1 == j)).map (fun p => 1 / (1 + p.2)) := by
  unfold populateRankings
  rw [getAssoc_foldl_setAssoc (fun d => 1 / (1 + d)) results [] j]
  cases results.reverse.find? (fun p => p.1 == j) <;> simp [getAssoc]

/-- C3 (counterexample): querying the concrete chroma index with the
features of track 1 and k = 2 returns track 2 at raw distance 1 and
assigns it similarity 1/2, whereas the claimed formula
`1/(1 + d/mean_chroma_distance)` with mean (0+1)/2 yields 1/3. -/
theorem c3_counterexample :
    tsQuery.hpcp_index.search hpcpA 2 = [(1, 0), (2, 1)] ∧
    getAssoc (populateRankings (tsQuery.hpcp_index.search hpcpA 2)) 2 = some (1 / 2) ∧
    ¬ ((1 : ℚ) / 2 = 1 / (1 + 1 / ((0 + 1) / 2))) :=
  of_decide_eq_true (by with_unfolding_all rfl)

/-- C4: for a candidate in the union of the two search result sets (so at
least one similarity is present) whose present similarities are positive
— as every `1/(1+d)` with `d ≥ 0` is — `get_weighted_score` returns
exactly `0.6 * chroma_similarity + 0.4 * timbre_similarity`, a missing
similarity counting as 0.0 rather than excluding the candidate. -/
theorem weighted_score_formula (h g : Option ℚ)
    (hh : ∀ x, h = some x → 0 < x) (hg : ∀ x, g = some x → 0 < x)
    (hne : h.isSome ∨ g.isSome) :
    get_weighted_score h g =
      some ((0.6 : ℚ) * h.getD 0 + (0.4 : ℚ) * g.getD 0) := by
  cases h with
  | none =>
    cases g with
    | none => simp at hne
    | some y =>
      have hy : 0 < y := hg y rfl
      have hty : truthy (some y) = true := by
        simp [truthy]
        exact ne_of_gt hy
      simp [get_weighted_score, hty, combineScores]
  | some x =>
    have hx : 0 < x := hh x rfl
    have htx : truthy (some x) = true := by
      simp [truthy]
      exact ne_of_gt hx
    cases g with
    | none =>
      simp [get_weighted_score, truthy, htx, combineScores]
      exact ne_of_gt hx
    | some y => simp [get_weighted_score, truthy, combineScores]

/-- Witness for C4: a candidate found only by the chroma search with
similarity 1/2 gets fused score 0.6*(1/2) + 0.4*0. -/
theorem weighted_score_formula_witness :
    get_weighted_score (some (1 / 2)) none =
      some ((0.6 : ℚ) * (1 / 2) + (0.4 : ℚ) * 0) := by
  have := weighted_score_formula (some (1 / 2)) none
    (by intro x hx; injection hx with hx'; rw [← hx']; norm_num)
    (by intro x hx; cases hx)
    (Or.inl rfl)
  simpa using this

/-- Any vector in a homogeneous batch has the common row length. -/
theorem sameLength_eq {l : List Vec} {d : ℕ} (h : sameLength l = some d) :
    ∀ v ∈ l, v.length = d := by
  cases l with
  | nil => intro v hv; cases hv
  | cons a t =>
    unfold sameLength at h
    by_cases hall : t.all (fun w => w.length == a.length)
    · simp [hall] at h
      intro v hv
      cases hv with
      | head => exact h
      | tail _ hm =>
        have := List.all_eq_true.mp hall v hm
        simpa [h] using this
    · simp [hall] at h

/-- C9: an `index_features` call in which some chroma vector is not
12-dimensional or some genre vector is not 1280-dimensional is rejected
— whether by an early validation return or by the `ValueError` numpy
raises on a ragged batch — and neither index gains any entry.  (The
ids/vectors length-mismatch branch of the claim cannot arise: both lists
are derived from the same dict.) -/
theorem index_features_rejects_bad_dims (ts : TrackSim)
    (fd : List (TrackId × Features))
    (hbad : (∃ p ∈ fd, p.2.hpcp.length ≠ HPCP_DIMENSION) ∨
            (∃ p ∈ fd, p.2.genre.length ≠ GENRE_DIMENSION)) :
    ∀ ts', index_features ts fd = some ts' → ts' = ts := by
  intro ts' h
  have hne : fd ≠ [] := by
    rcases hbad with ⟨p, hp, _⟩ | ⟨p, hp, _⟩ <;> exact List.ne_nil_of_mem hp
  unfold index_features at h
  rw [if_neg (by simpa using hne)] at h
  dsimp only at h
  cases hh : sameLength (fd.map (fun p => p.2.hpcp)) with
  | none => rw [hh] at h; cases h
  | some hdim =>
    cases hg : sameLength (fd.map (fun p => p.2.genre)) with
    | none => rw [hh, hg] at h; cases h
    | some gdim =>
      rw [hh, hg] at h
      dsimp only at h
      by_cases h12 : hdim = HPCP_DIMENSION
      · by_cases h1280 : gdim = GENRE_DIMENSION
        · exfalso
          rcases hbad with ⟨p, hp, hlen⟩ | ⟨p, hp, hlen⟩
          · exact hlen (by
              rw [← h12]
              exact sameLength_eq hh p.2.hpcp (List.mem_map_of_mem _ hp))
          · exact hlen (by
              rw [← h1280]
              exact sameLength_eq hg p.2.genre (List.mem_map_of_mem _ hp))
        · rw [h12, if_neg (fun hc => hc rfl), if_pos h1280] at h
          exact (Option.some_inj.mp h).symm
      · rw [if_pos h12] at h
        exact (Option.some_inj.mp h).symm

/-- The score loop keeps exactly the candidate ids, in order. -/
theorem scoreAll_map_fst (hr gr : List (TrackId × ℚ)) (compat : List TrackId) :
    ∀ (ids : List TrackId) (l : List (TrackId × ℚ)),
      scoreAll hr gr compat ids = some l → l.map Prod.fst = ids := by
  intro ids
  induction ids with
  | nil =>
    intro l h
    simp only [scoreAll, Option.some_inj] at h
    rw [← h]
    rfl
  | cons j rest ih =>
    intro l h
    unfold scoreAll at h
    cases hts : trackScore hr gr (compat.contains j) j with
    | none =>
      rw [hts] at h
      cases h
    | some s =>
      rw [hts] at h
      cases hrec : scoreAll hr gr compat rest with
      | none =>
        rw [hrec] at h
        cases h
      | some t =>
        rw [hrec] at h
        simp only [Option.map_some', Option.some_inj] at h
        rw [← h]
        simp [ih t hrec]

/-- A successful `find_similar_core` ranks a permutation of the candidate
id union. -/
theorem find_similar_core_perm (ts : TrackSim) (db : Database) (f : Features)
    (k : ℕ) (l : List (TrackId × ℚ)) (h : find_similar_core ts db f k = some l) :
    List.Perm (l.map Prod.fst)
      (allCandidateIds (ts.hpcp_index.search f.hpcp k) (ts.genre_index.search f.genre k)) := by
  unfold find_similar_core at h
  dsimp only at h
  cases hrows : db.get_features_by_ids
      (allCandidateIds (ts.hpcp_index.search f.hpcp k) (ts.genre_index.search f.genre k)) with
  | none =>
    rw [hrows] at h
    cases h
  | some rows =>
    rw [hrows] at h
    dsimp only at h
    by_cases hbpm : rows.any (fun p => p.2.bpm_data.isNone)
    · rw [if_pos hbpm] at h
      cases h
    · rw [if_neg hbpm] at h
      cases hsc : scoreAll (populateRankings (ts.hpcp_index.search f.hpcp k))
          (populateRankings (ts.genre_index.search f.genre k))
          ((rows.filter (fun p => bpmCompatible f.bpm (p.2.bpm_data.getD 0))).map
            (fun p => p.1))
          (allCandidateIds (ts.hpcp_index.search f.hpcp k)
            (ts.genre_index.search f.genre k)) with
      | none =>
        rw [hsc] at h
        cases h
      | some track_scores =>
        rw [hsc] at h
        have hl : l = track_scores.mergeSort (fun a b => decide (b.2 ≤ a.2)) :=
          (Option.some_inj.mp h).symm
        rw [hl]
        have hperm : List.Perm (track_scores.mergeSort (fun a b => decide (b.2 ≤ a.2)))
            track_scores :=
          List.mergeSort_perm track_scores _
        have := hperm.map Prod.fst
        rw [scoreAll_map_fst _ _ _ _ _ hsc] at this
        exact this

/-- A successful `find_similar_tracks_to` comes from a successful core
query with some resolved features. -/
theorem find_similar_tracks_to_some (ts : TrackSim) (db : Database)
    (track_path : Option String) (track_id : Option TrackId)
    (features : Option Features) (k : ℕ) (l : List (TrackId × ℚ))
    (h : find_similar_tracks_to ts db track_path track_id features k = some l) :
    ∃ f, find_similar_core ts db f k = some l := by
  unfold find_similar_tracks_to at h
  split at h
  · cases h
  · dsimp only at h
    split at h
    · cases h
    · split at h
      · cases h
      · exact ⟨_, h⟩

/-- C10: every ranked list returned by `find_similar_tracks_to` with
requested neighbour count k lists each TrackId at most once and has at
most 2k entries (candidates come from the set union of the two top-k id
sets). -/
theorem query_output_nodup_bounded (ts : TrackSim) (db : Database)
    (track_path : Option String) (track_id : Option TrackId)
    (features : Option Features) (k : ℕ) (l : List (TrackId × ℚ))
    (h : find_similar_tracks_to ts db track_path track_id features k = some l) :
    (l.map Prod.fst).Nodup ∧ l.length ≤ 2 * k := by
  obtain ⟨f, hc⟩ := find_similar_tracks_to_some ts db track_path track_id features k l h
  have hperm := find_similar_core_perm ts db f k l hc
  constructor
  · exact hperm.symm.nodup (List.nodup_dedup _)
  · have h1 : l.length = (l.map Prod.fst).length := (List.length_map _ _).symm
    rw [h1, hperm.length_eq]
    have h2 : (allCandidateIds (ts.hpcp_index.search f.hpcp k)
        (ts.genre_index.search f.genre k)).length ≤
        ((ts.hpcp_index.search f.hpcp k).map (fun p => p.1)).length +
        ((ts.genre_index.search f.genre k).map (fun p => p.1)).length := by
      have := (List.dedup_sublist ((ts.hpcp_index.search f.hpcp k).map (fun p => p.1) ++
        (ts.genre_index.search f.genre k).map (fun p => p.1))).length_le
      simpa [allCandidateIds] using this
    have h3 : ((ts.hpcp_index.search f.hpcp k).map (fun p => p.1)).length ≤ k := by
      simp only [List.length_map]
      unfold FaissIndexIDMap.search
      exact List.length_take_le _ _
    have h4 : ((ts.genre_index.search f.genre k).map (fun p => p.1)).length ≤ k := by
      simp only [List.length_map]
      unfold FaissIndexIDMap.search
      exact List.length_take_le _ _
    omega

/-- Witness for C10: a concrete k = 2 query returns two distinct ids. -/
theorem query_output_nodup_bounded_witness :
    (([((1 : ℤ), (1.1 : ℚ)), (2, 0.77)].map Prod.fst).Nodup ∧
     ([((1 : ℤ), (1.1 : ℚ)), (2, 0.77)] : List (ℤ × ℚ)).length ≤ 2 * 2) :=
  query_output_nodup_bounded tsQuery dbQuery none (some 1) none 2 _
    (of_decide_eq_true (by with_unfolding_all rfl))

/-- C5: a candidate whose tempo lies within the ±5% band
(`0.95*query ≤ candidate ≤ 1.05*query`, exactly the code's
`bpmCompatible` test) has its fused score multiplied by 1.1, strictly
increasing it; a candidate outside the band keeps its unboosted score,
and every candidate id of the union stays in the ranked output either
way (the boost is not a filter). -/
theorem tempo_boost_monotone (hr gr : List (TrackId × ℚ))
    (query_bpm candidate_bpm : ℚ) (j : TrackId) (s : ℚ)
    (hs : get_weighted_score (getAssoc hr j) (getAssoc gr j) = some s)
    (hpos : 0 < s) :
    (bpmCompatible query_bpm candidate_bpm = true →
      trackScore hr gr (bpmCompatible query_bpm candidate_bpm) j =
        some (s * (1.1 : ℚ)) ∧ s < s * (1.1 : ℚ)) ∧
    (bpmCompatible query_bpm candidate_bpm = false →
      trackScore hr gr (bpmCompatible query_bpm candidate_bpm) j = some s) ∧
    (bpmCompatible query_bpm candidate_bpm = true ↔
      query_bpm * (0.95 : ℚ) ≤ candidate_bpm ∧
      candidate_bpm ≤ query_bpm * (1.05 : ℚ)) ∧
    (∀ (ts : TrackSim) (db : Database) (f : Features) (k : ℕ)
      (l : List (TrackId × ℚ)) (i : TrackId),
      find_similar_core ts db f k = some l →
      i ∈ allCandidateIds (ts.hpcp_index.search f.hpcp k)
        (ts.genre_index.search f.genre k) →
      i ∈ l.map Prod.fst) := by
  refine ⟨?_, ?_, ?_, ?_⟩
  · intro hb
    constructor
    · unfold trackScore
      rw [hs, hb]
      simp
    · have h1 : (1 : ℚ) < 1.1 := by norm_num
      calc s = s * 1 := by ring
        _ < s * 1.1 := (mul_lt_mul_left hpos).mpr h1
  · intro hb
    unfold trackScore
    rw [hs, hb]
    simp
  · simp [bpmCompatible, Bool.and_eq_true, decide_eq_true_eq, ge_iff_le, and_comm]
  · intro ts db f k l i hc hm
    exact ((find_similar_core_perm ts db f k l hc).mem_iff).mpr hm

/-- Witness for C5: a tempo-compatible candidate with fused score 3/10
is boosted to (3/10)*1.1, strictly more. -/
theorem tempo_boost_monotone_witness :
    trackScore [(5, 1 / 2)] [] (bpmCompatible 120 120) 5 =
      some (((0.6 : ℚ) * (1 / 2) + (0.4 : ℚ) * 0) * (1.1 : ℚ)) ∧
    ((0.6 : ℚ) * (1 / 2) + (0.4 : ℚ) * 0) <
      ((0.6 : ℚ) * (1 / 2) + (0.4 : ℚ) * 0) * (1.1 : ℚ) := by
  have h := tempo_boost_monotone [(5, 1 / 2)] [] 120 120 5
    ((0.6 : ℚ) * (1 / 2) + (0.4 : ℚ) * 0)
    (of_decide_eq_true (by with_unfolding_all rfl))
    (by norm_num)
  exact h.1 (of_decide_eq_true (by with_unfolding_all rfl))

/-- Witness for C9: a batch with an 11-dimensional chroma vector is
rejected and leaves the empty index pair unchanged. -/
theorem index_features_rejects_bad_dims_witness :
    index_features tsEmpty badBatch = some tsEmpty ∧
    ∀ ts', index_features tsEmpty badBatch = some ts' → ts' = tsEmpty :=
  ⟨of_decide_eq_true (by with_unfolding_all rfl),
   index_features_rejects_bad_dims tsEmpty badBatch
     (Or.inl ⟨(5, { hpcp := List.replicate 11 (0 : ℚ), bpm := 120, genre := [0] }),
       of_decide_eq_true (by with_unfolding_all rfl),
       of_decide_eq_true (by with_unfolding_all rfl)⟩)⟩

/-- One gradient step either leaves the playlist unchanged (skipped step)
or appends exactly one track. -/
theorem gradientStep_playlist (ts : TrackSim) (db : Database) (sf tf : Features)
    (mode num_tracks : ℕ) (st : GradState) (s : ℕ) (st' : GradState)
    (h : gradientStep ts db sf tf mode num_tracks st s = some st') :
    st'.playlist = st.playlist ∨ ∃ b, st'.playlist = st.playlist ++ [b] := by
  unfold gradientStep at h
  dsimp only at h
  split at h
  · cases h
  · split at h
    · cases h
    · split at h
      · exact Or.inl (congrArg GradState.playlist (Option.some_inj.mp h)).symm
      · split at h
        · exact Or.inl (congrArg GradState.playlist (Option.some_inj.mp h)).symm
        · split at h
          · rename_i best hfind
            refine Or.inr ⟨best.1, ?_⟩
            rw [← Option.some_inj.mp h]
          · exact Or.inl (congrArg GradState.playlist (Option.some_inj.mp h)).symm

/-- Through the gradient loop the playlist grows by at most one track per
step and keeps its head. -/
theorem gradientLoop_bound (ts : TrackSim) (db : Database) (sf tf : Features)
    (mode num_tracks : ℕ) :
    ∀ (steps : List ℕ) (st st' : GradState),
      gradientLoop ts db sf tf mode num_tracks st steps = some st' →
      st'.playlist.length ≤ st.playlist.length + steps.length ∧
      (st.playlist ≠ [] →
        st'.playlist.head? = st.playlist.head? ∧ st'.playlist ≠ []) := by
  intro steps
  induction steps with
  | nil =>
    intro st st' h
    cases Option.some_inj.mp (h : some st = some st')
    exact ⟨by simp, fun hne => ⟨rfl, hne⟩⟩
  | cons s rest ih =>
    intro st st' h
    unfold gradientLoop at h
    cases hstep : gradientStep ts db sf tf mode num_tracks st s with
    | none =>
      rw [hstep] at h
      cases h
    | some st1 =>
      rw [hstep] at h
      have h1 := ih st1 st' h
      rcases gradientStep_playlist ts db sf tf mode num_tracks st s st1 hstep with
        heq | ⟨b, heq⟩
      · constructor
        · have := h1.1
          rw [heq] at this
          simpa using Nat.le_succ_of_le this
        · intro hne
          have h2 := h1.2 (by rw [heq]; exact hne)
          rw [heq] at h2
          exact h2
      · constructor
        · have h0 := h1.1
          have hlen : st1.playlist.length = st.playlist.length + 1 := by
            rw [heq]
            simp
          rw [hlen] at h0
          simp only [List.length_cons]
          omega
        · intro hne
          have hne1 : st1.playlist ≠ [] := by
            rw [heq]
            simp
          have h2 := h1.2 hne1
          refine ⟨?_, h2.2⟩
          rw [h2.1, heq]
          cases hpl : st.playlist with
          | nil => exact absurd hpl hne
          | cons x xs => simp

/-- C6 (amended): a LinearInterpolationWalk call that returns a playlist
returns one that starts with the source TrackId and has at most n+1
entries (the source plus at most one selected track per step); the
destination is never appended as an endpoint. -/
theorem gradient_walk_shape (ts : TrackSim) (db : Database)
    (sp dp : String) (num_tracks mode : ℕ) (pl : List TrackId)
    (h : create_playlist_gradient ts db sp dp num_tracks mode = some pl) :
    pl.head? = db.get_track_id_by_path sp ∧ pl.length ≤ num_tracks + 1 := by
  unfold create_playlist_gradient at h
  cases hsp : db.get_track_id_by_path sp with
  | none =>
    rw [hsp] at h
    cases h
  | some sid =>
    cases hdp : db.get_track_id_by_path dp with
    | none =>
      rw [hsp, hdp] at h
      cases h
    | some did =>
      rw [hsp, hdp] at h
      dsimp only at h
      cases hsf : db.get_feature_by_id sid with
      | none =>
        rw [hsf] at h
        cases h
      | some sf =>
        cases hdf : db.get_feature_by_id did with
        | none =>
          rw [hsf, hdf] at h
          cases h
        | some df =>
          rw [hsf, hdf] at h
          dsimp only at h
          cases hloop : gradientLoop ts db sf df mode num_tracks
              { playlist := [sid], current := sid } (List.range' 1 num_tracks) with
          | none =>
            rw [hloop] at h
            cases h
          | some st =>
            rw [hloop] at h
            have hb := gradientLoop_bound ts db sf df mode num_tracks
              (List.range' 1 num_tracks) { playlist := [sid], current := sid } st hloop
            have hpl : pl = st.playlist := (Option.some_inj.mp h).symm
            constructor
            · rw [hpl, (hb.2 (by simp)).1]
              rfl
            · rw [hpl]
              have := hb.1
              simp only [List.length_range', List.length_singleton] at this
              omega

/-- C6 (counterexample): a LinearInterpolationWalk over endpoints that
both resolve and have stored features, with n = 0 interior tracks,
returns just the source — length 1, not n+2 = 2 — and the destination
(track 2) is not at the final position. -/
theorem gradient_no_destination_counterexample :
    dbEndpoints.get_track_id_by_path "dst" = some 2 ∧
    (dbEndpoints.get_feature_by_id 2).isSome = true ∧
    create_playlist_gradient tsEmpty dbEndpoints "src" "dst" 0 0 = some [1] ∧
    ¬ (([1] : List TrackId).length = 0 + 2) ∧
    ¬ (([1] : List TrackId).getLast? = some 2) :=
  of_decide_eq_true (by with_unfolding_all rfl)

/-- Witness for C6 (amended): a concrete 3-step walk returns a playlist
headed by the source with at most 4 entries. -/
theorem gradient_walk_shape_witness :
    ([(1 : ℤ)] : List TrackId).head? = dbEndpoints.get_track_id_by_path "src" ∧
    ([(1 : ℤ)] : List TrackId).length ≤ 3 + 1 :=
  gradient_walk_shape tsEmpty dbEndpoints "src" "dst" 3 1 [1]
    (of_decide_eq_true (by with_unfolding_all rfl))

/-- One directional step never brings the destination into the playlist
nor into the `best_track_id` variable: the candidate filter rejects the
destination, and the stale fallback re-appends only earlier non-destination
candidates. -/
theorem dirStep_inv (ts : TrackSim) (db : Database) (norm : Vec → ℚ)
    (df : Features) (did : TrackId) (hstp gstp : ℚ) (num_tracks : ℕ)
    (st : DirState) (s : ℕ) (r : DirStepResult)
    (h : dirStep ts db norm df did hstp gstp num_tracks st s = some r)
    (hinv1 : did ∉ st.playlist) (hinv2 : ∀ b, st.best = some b → b ≠ did) :
    ∀ st', (r = .cont st' ∨ r = .brk st') →
      did ∉ st'.playlist ∧ (∀ b, st'.best = some b → b ≠ did) := by
  unfold dirStep at h
  dsimp only at h
  split at h
  · cases h
  · split at h
    · -- search returned None: break with the state unchanged
      have hr : r = DirStepResult.brk st := (Option.some_inj.mp h).symm
      intro st' hst'
      rcases hst' with hc | hb
      · rw [hr] at hc
        cases hc
      · rw [hr] at hb
        cases hb
        exact ⟨hinv1, hinv2⟩
    · split at h
      · -- empty search result: break with the state unchanged
        have hr : r = DirStepResult.brk st := (Option.some_inj.mp h).symm
        intro st' hst'
        rcases hst' with hc | hb
        · rw [hr] at hc
          cases hc
        · rw [hr] at hb
          cases hb
          exact ⟨hinv1, hinv2⟩
      · split at h
        · -- a fresh candidate b passed the filter, so b ≠ destination
          rename_i sims hne b hfind
          have hr := (Option.some_inj.mp h).symm
          have hbne : b ≠ did := by
            rcases Option.map_eq_some'.mp hfind with ⟨p, hp, hpb⟩
            have hpred := List.find?_some hp
            simp only [Bool.and_eq_true] at hpred
            have hne2 : (p.1 != did) = true := hpred.2
            rw [← hpb]
            simpa using hne2
          intro st' hst'
          rcases hst' with hc | hb2
          · rw [hr] at hc
            cases hc
            constructor
            · intro hmem
              rcases List.mem_append.mp hmem with hm | hm
              · exact hinv1 hm
              · exact hbne (List.mem_singleton.mp hm).symm
            · intro b' hb'
              cases Option.some_inj.mp hb'
              exact hbne
          · rw [hr] at hb2
            cases hb2
        · -- stale best_track_id: re-append the earlier candidate
          split at h
          · cases h
          · rename_i b hbest
            have hr := (Option.some_inj.mp h).symm
            have hbne : b ≠ did := hinv2 b hbest
            intro st' hst'
            rcases hst' with hc | hb2
            · rw [hr] at hc
              cases hc
              constructor
              · intro hmem
                rcases List.mem_append.mp hmem with hm | hm
                · exact hinv1 hm
                · exact hbne (List.mem_singleton.mp hm).symm
              · intro b' hb'
                cases Option.some_inj.mp hb'
                exact hbne
            · rw [hr] at hb2
              cases hb2

/-- The directional loop preserves the destination-exclusion invariant. -/
theorem dirLoop_inv (ts : TrackSim) (db : Database) (norm : Vec → ℚ)
    (df : Features) (did : TrackId) (hstp gstp : ℚ) (num_tracks : ℕ) :
    ∀ (steps : List ℕ) (st st' : DirState),
      dirLoop ts db norm df did hstp gstp num_tracks st steps = some st' →
      did ∉ st.playlist → (∀ b, st.best = some b → b ≠ did) →
      did ∉ st'.playlist := by
  intro steps
  induction steps with
  | nil =>
    intro st st' h h1 h2
    cases Option.some_inj.mp (h : some st = some st')
    exact h1
  | cons s rest ih =>
    intro st st' h h1 h2
    unfold dirLoop at h
    cases hstep : dirStep ts db norm df did hstp gstp num_tracks st s with
    | none =>
      rw [hstep] at h
      cases h
    | some r =>
      rw [hstep] at h
      cases r with
      | brk st1 =>
        have hinv := dirStep_inv ts db norm df did hstp gstp num_tracks st s
          (.brk st1) hstep h1 h2 st1 (Or.inr rfl)
        cases Option.some_inj.mp (h : some st1 = some st')
        exact hinv.1
      | cont st1 =>
        have hinv := dirStep_inv ts db norm df did hstp gstp num_tracks st s
          (.cont st1) hstep h1 h2 st1 (Or.inl rfl)
        exact ih st1 st' h hinv.1 hinv.2

/-- C7 (amended): a DirectionalStepWalk whose endpoints resolve to
distinct TrackIds with stored features and which returns a playlist puts
the destination TrackId at the final position, exactly once: mid-walk
selection never picks the destination, and it is appended once at the
end.  (When source and destination coincide, the destination is the
first entry instead, as the counterexample shows.) -/
theorem direction_walk_destination_final (ts : TrackSim) (db : Database)
    (norm : Vec → ℚ) (sp dp : String) (num_tracks : ℕ) (pl : List TrackId)
    (sid did : TrackId)
    (hs : db.get_track_id_by_path sp = some sid)
    (hd : db.get_track_id_by_path dp = some did)
    (hne : sid ≠ did)
    (h : create_playlist_include_track_direction ts db norm sp dp num_tracks = some pl) :
    pl.getLast? = some did ∧ pl.count did = 1 := by
  unfold create_playlist_include_track_direction at h
  rw [hs, hd] at h
  dsimp only at h
  cases hsf : db.get_feature_by_id sid with
  | none =>
    rw [hsf] at h
    cases h
  | some sf =>
    cases hdf : db.get_feature_by_id did with
    | none =>
      rw [hsf, hdf] at h
      cases h
    | some df =>
      rw [hsf, hdf] at h
      dsimp only at h
      cases hloop : dirLoop ts db norm df did
          (norm (vsub df.hpcp sf.hpcp) / (num_tracks : ℚ))
          (norm (vsub df.genre sf.genre) / (num_tracks : ℚ)) num_tracks
          { playlist := [sid], current := sid, best := none }
          (List.range' 1 num_tracks) with
      | none =>
        rw [hloop] at h
        cases h
      | some st =>
        rw [hloop] at h
        dsimp only at h
        have hnotin : did ∉ st.playlist := by
          refine dirLoop_inv ts db norm df did _ _ num_tracks
            (List.range' 1 num_tracks)
            { playlist := [sid], current := sid, best := none } st hloop ?_ ?_
          · intro hmem
            exact hne (List.mem_singleton.mp hmem).symm
          · intro b hb
            cases hb
        have hcon : st.playlist.contains did = false := by
          rw [Bool.eq_false_iff]
          intro hc
          exact hnotin (by simpa using hc)
        rw [hcon] at h
        simp only [Bool.false_eq_true, if_false] at h
        have hpl : pl = st.playlist ++ [did] := (Option.some_inj.mp h).symm
        constructor
        · rw [hpl]
          simp
        · rw [hpl, List.count_append]
          rw [List.count_eq_zero.mpr hnotin]
          simp

/-- C7 (counterexample): when source and destination paths resolve to the
same TrackId (track 1, which has stored features), the walk appends a
mid-walk candidate after it, so the destination appears exactly once but
at position 0, not at the final position. -/
theorem direction_walk_counterexample :
    dbQuery.get_track_id_by_path "p" = some 1 ∧
    (dbQuery.get_feature_by_id 1).isSome = true ∧
    create_playlist_include_track_direction tsQuery dbQuery normZero "p" "p" 1 =
      some [1, 2] ∧
    ([1, 2] : List TrackId).count 1 = 1 ∧
    ¬ (([1, 2] : List TrackId).getLast? = some 1) :=
  of_decide_eq_true (by with_unfolding_all rfl)

/-- Witness for C7 (amended): a concrete walk from track 1 to track 2
ends with the destination exactly once. -/
theorem direction_walk_destination_final_witness :
    ([1, 3, 2] : List TrackId).getLast? = some 2 ∧
    ([1, 3, 2] : List TrackId).count 2 = 1 :=
  direction_walk_destination_final tsQuery dbQuery normZero "p" "q" 1 [1, 3, 2] 1 2
    (of_decide_eq_true (by with_unfolding_all rfl))
    (of_decide_eq_true (by with_unfolding_all rfl))
    (by decide)
    (of_decide_eq_true (by with_unfolding_all rfl))

/-- C8 (amended): the two endpoint walks (LinearInterpolationWalk and
DirectionalStepWalk) fail the whole call when an endpoint path does not
resolve or a resolved endpoint has no stored features; MultiTrackUnion
(`create_playlist_multitrack_related`) never fails on a non-empty input
list — unresolvable paths and failed queries are skipped and the call
still returns a (possibly empty or partial) playlist. -/
theorem playlist_failure_semantics :
    (∀ (ts : TrackSim) (db : Database) (sp dp : String) (n mode : ℕ),
      (db.get_track_id_by_path sp = none ∨ db.get_track_id_by_path dp = none ∨
       (∃ sid, db.get_track_id_by_path sp = some sid ∧
         db.get_feature_by_id sid = none) ∨
       (∃ did, db.get_track_id_by_path dp = some did ∧
         db.get_feature_by_id did = none)) →
      create_playlist_gradient ts db sp dp n mode = none) ∧
    (∀ (ts : TrackSim) (db : Database) (norm : Vec → ℚ) (sp dp : String) (n : ℕ),
      (db.get_track_id_by_path sp = none ∨ db.get_track_id_by_path dp = none ∨
       (∃ sid, db.get_track_id_by_path sp = some sid ∧
         db.get_feature_by_id sid = none) ∨
       (∃ did, db.get_track_id_by_path dp = some did ∧
         db.get_feature_by_id did = none)) →
      create_playlist_include_track_direction ts db norm sp dp n = none) ∧
    (∀ (ts : TrackSim) (db : Database) (paths : List String) (k : ℕ),
      paths ≠ [] →
      (create_playlist_multitrack_related ts db paths k).isSome = true) := by
  refine ⟨?_, ?_, ?_⟩
  · intro ts db sp dp n mode hcond
    unfold create_playlist_gradient
    rcases hcond with h | h | ⟨sid, hsp, hf⟩ | ⟨did, hdp, hf⟩
    · rw [h]
    · rw [h]
      cases hx : db.get_track_id_by_path sp <;> rfl
    · rw [hsp]
      cases hx : db.get_track_id_by_path dp with
      | none => rfl
      | some did2 =>
        dsimp only
        rw [hf]
    · rw [hdp]
      cases hx : db.get_track_id_by_path sp with
      | none => rfl
      | some sid2 =>
        dsimp only
        rw [hf]
        cases hg : db.get_feature_by_id sid2 <;> rfl
  · intro ts db norm sp dp n hcond
    unfold create_playlist_include_track_direction
    rcases hcond with h | h | ⟨sid, hsp, hf⟩ | ⟨did, hdp, hf⟩
    · rw [h]
    · rw [h]
      cases hx : db.get_track_id_by_path sp <;> rfl
    · rw [hsp]
      cases hx : db.get_track_id_by_path dp with
      | none => rfl
      | some did2 =>
        dsimp only
        rw [hf]
    · rw [hdp]
      cases hx : db.get_track_id_by_path sp with
      | none => rfl
      | some sid2 =>
        dsimp only
        rw [hf]
        cases hg : db.get_feature_by_id sid2 <;> rfl
  · intro ts db paths k hne
    unfold create_playlist_multitrack_related
    rw [if_neg (by simpa using hne)]
    rfl

/-- C8 (counterexample): MultiTrackUnion over a single unresolvable path
does not fail — it returns an empty playlist instead of an error. -/
theorem multitrack_union_skips_unresolved_counterexample :
    dbClean.get_track_id_by_path "bad" = none ∧
    create_playlist_multitrack_related tsEmpty dbClean ["bad"] 5 = some [] :=
  of_decide_eq_true (by with_unfolding_all rfl)

/-- Witness for C8 (amended): both walks fail on an unresolvable source
path; MultiTrackUnion on the same input still succeeds. -/
theorem playlist_failure_semantics_witness :
    create_playlist_gradient tsEmpty dbClean "x" "y" 2 0 = none ∧
    create_playlist_include_track_direction tsEmpty dbClean normZero "x" "y" 2 = none ∧
    (create_playlist_multitrack_related tsEmpty dbClean ["x"] 5).isSome = true :=
  ⟨playlist_failure_semantics.1 tsEmpty dbClean "x" "y" 2 0
    (Or.inl (of_decide_eq_true (by with_unfolding_all rfl))),
   playlist_failure_semantics.2.1 tsEmpty dbClean normZero "x" "y" 2
    (Or.inl (of_decide_eq_true (by with_unfolding_all rfl))),
   playlist_failure_semantics.2.2 tsEmpty dbClean ["x"] 5 (List.cons_ne_nil _ _)⟩

/-- C1 (code bug): the batch pipeline over one resolvable track with no
stored features, whose extraction and storage succeed, stores a complete
feature row for track 1 — yet returns an empty successful set, because
`successful_files | stored_in_batch` (source lines 112/126) computes the
union and discards it.  The claimed return value, pre-existing-complete
∪ newly-stored = {1}, differs from the actual ∅. -/
theorem pipeline_drops_new_successes :
    (find_features_of_list dbPipe tsEmpty ["a"] extractOk 128).map
      (fun r => r.successful_files) = some ∅ ∧
    (find_features_of_list dbPipe tsEmpty ["a"] extractOk 128).map
      (fun r => r.db.complete 1) = some true ∧
    (∅ : Finset TrackId) ≠ ({1} : Finset TrackId) :=
  of_decide_eq_true (by with_unfolding_all rfl)

/-- C2 (counterexample): flushing a batch for track 7 against a store
whose write fails still adds track 7 to both indexes, leaving them
referencing an id the store does not have. -/
theorem store_batch_indexes_failed_write_counterexample :
    (store_batch dbFaulty tsEmpty [(7, fullFeatures)]).2.2 =
      StoreOutcome.returnedNone ∧
    ((store_batch dbFaulty tsEmpty [(7, fullFeatures)]).2.1.hpcp_index.entries.map
      (fun p => p.1)) = [7] ∧
    ((store_batch dbFaulty tsEmpty [(7, fullFeatures)]).2.1.genre_index.entries.map
      (fun p => p.1)) = [7] ∧
    (store_batch dbFaulty tsEmpty [(7, fullFeatures)]).1.complete 7 = false :=
  of_decide_eq_true (by with_unfolding_all rfl)

/-- A successful batch insert makes complete every id that was complete
before or is written by the batch. -/
theorem complete_after_batch_insert (db : Database)
    (fd : List (TrackId × Features)) (j : TrackId)
    (hok : db.dbError = false)
    (hj : db.complete j = true ∨ j ∈ fd.map (fun p => p.1)) :
    (db.batch_insert_features fd).1.complete j = true := by
  unfold Database.batch_insert_features
  rw [hok]
  simp only [Bool.false_eq_true, if_false]
  unfold Database.complete
  dsimp only
  rw [getAssoc_foldl_setAssoc
    (fun f => ({ hpcp_data := f.hpcp, bpm_data := some f.bpm,
                 genre_data := some f.genre } : FeatureRow)) fd db.table j]
  cases hfind : fd.reverse.find? (fun p => p.1 == j) with
  | some p => simp
  | none =>
    rcases hj with hc | hm
    · unfold Database.complete at hc
      exact hc
    · exfalso
      rcases List.mem_map.mp hm with ⟨p, hp, hpj⟩
      have hprev : p ∈ fd.reverse := List.mem_reverse.mpr hp
      have := List.find?_eq_none.mp hfind p hprev
      simp [hpj] at this

/-- Ids present in the indexes after `index_features` come from the old
indexes or from the indexed batch. -/
theorem index_features_ids (ts : TrackSim) (fd : List (TrackId × Features))
    (ts' : TrackSim) (h : index_features ts fd = some ts') :
    (∀ j, j ∈ ts'.hpcp_index.entries.map (fun p => p.1) →
      j ∈ ts.hpcp_index.entries.map (fun p => p.1) ∨ j ∈ fd.map (fun p => p.1)) ∧
    (∀ j, j ∈ ts'.genre_index.entries.map (fun p => p.1) →
      j ∈ ts.genre_index.entries.map (fun p => p.1) ∨ j ∈ fd.map (fun p => p.1)) := by
  unfold index_features at h
  split at h
  · cases Option.some_inj.mp h
    exact ⟨fun j hj => Or.inl hj, fun j hj => Or.inl hj⟩
  · dsimp only at h
    split at h
    · split at h
      · cases Option.some_inj.mp h
        exact ⟨fun j hj => Or.inl hj, fun j hj => Or.inl hj⟩
      · split at h
        · cases Option.some_inj.mp h
          exact ⟨fun j hj => Or.inl hj, fun j hj => Or.inl hj⟩
        · split at h
          · cases Option.some_inj.mp h
            exact ⟨fun j hj => Or.inl hj, fun j hj => Or.inl hj⟩
          · split at h
            · cases Option.some_inj.mp h
              exact ⟨fun j hj => Or.inl hj, fun j hj => Or.inl hj⟩
            · cases Option.some_inj.mp h
              constructor
              · intro j hj
                simp only [FaissIndexIDMap.add_with_ids, List.map_append,
                  List.mem_append] at hj
                rcases hj with hj | hj
                · exact Or.inl hj
                · rcases List.mem_map.mp hj with ⟨pr, hpr, hpj⟩
                  exact Or.inr (by
                    rw [← hpj]
                    exact (List.of_mem_zip hpr).1)
              · intro j hj
                simp only [FaissIndexIDMap.add_with_ids, List.map_append,
                  List.mem_append] at hj
                rcases hj with hj | hj
                · exact Or.inl hj
                · rcases List.mem_map.mp hj with ⟨pr, hpr, hpj⟩
                  exact Or.inr (by
                    rw [← hpj]
                    exact (List.of_mem_zip hpr).1)
    · cases h

/-- C2 (amended): a batch flush whose store write succeeds preserves the
index-store consistency invariant — every id present in either index
after the flush has a complete FeatureVector in the store, given the
invariant held before.  (When the store write fails, the batch is still
added to both indexes, per the counterexample.) -/
theorem store_batch_success_preserves_inv (db : Database) (ts : TrackSim)
    (feature_batch : List (TrackId × Features))
    (hinv : IndexStoreInv db ts) (hok : db.dbError = false) :
    IndexStoreInv (store_batch db ts feature_batch).1
      (store_batch db ts feature_batch).2.1 := by
  unfold store_batch
  by_cases hemp : feature_batch.isEmpty
  · rw [if_pos hemp]
    exact hinv
  · rw [if_neg hemp]
    dsimp only
    cases hidx : index_features ts feature_batch with
    | none =>
      dsimp only
      intro j hj
      exact complete_after_batch_insert db feature_batch j hok (Or.inl (hinv j hj))
    | some ts2 =>
      dsimp only
      cases hr2 : (db.batch_insert_features feature_batch).2 with
      | none =>
        dsimp only
        intro j hj
        rcases hj with hj | hj
        · rcases (index_features_ids ts feature_batch ts2 hidx).1 j hj with hold | hnew
          · exact complete_after_batch_insert db feature_batch j hok
              (Or.inl (hinv j (Or.inl hold)))
          · exact complete_after_batch_insert db feature_batch j hok (Or.inr hnew)
        · rcases (index_features_ids ts feature_batch ts2 hidx).2 j hj with hold | hnew
          · exact complete_after_batch_insert db feature_batch j hok
              (Or.inl (hinv j (Or.inr hold)))
          · exact complete_after_batch_insert db feature_batch j hok (Or.inr hnew)
      | some s =>
        dsimp only
        intro j hj
        rcases hj with hj | hj
        · rcases (index_features_ids ts feature_batch ts2 hidx).1 j hj with hold | hnew
          · exact complete_after_batch_insert db feature_batch j hok
              (Or.inl (hinv j (Or.inl hold)))
          · exact complete_after_batch_insert db feature_batch j hok (Or.inr hnew)
        · rcases (index_features_ids ts feature_batch ts2 hidx).2 j hj with hold | hnew
          · exact complete_after_batch_insert db feature_batch j hok
              (Or.inl (hinv j (Or.inr hold)))
          · exact complete_after_batch_insert db feature_batch j hok (Or.inr hnew)

/-- Witness for C2 (amended): flushing a batch for track 7 against a
healthy empty store leaves the indexes consistent with the store. -/
theorem store_batch_success_preserves_inv_witness :
    IndexStoreInv (store_batch dbClean tsEmpty [(7, fullFeatures)]).1
      (store_batch dbClean tsEmpty [(7, fullFeatures)]).2.1 :=
  store_batch_success_preserves_inv dbClean tsEmpty [(7, fullFeatures)]
    (fun j hj => by simp [tsEmpty] at hj) rfl

end MLP
